import Mathlib

/-!
Verification of the local HTTP prediction server and template-rendering
pipeline of `gradio/networking.py`.

The Python source is shallowly embedded:

* Python JSON values (the payloads of `json.dumps` / `json.loads`) become the
  inductive type `Json`; `json.dumps` with its default arguments
  (`ensure_ascii=True`, separators `", "` and `": "`, insertion-ordered dict
  members) becomes `Json.dumps`.
* `render_string_or_list_with_tags` becomes
  `render_string_or_list_with_tags`, built from `pyStrReplace`, a model of
  Python's `str.replace` (all non-overlapping occurrences, scanned left to
  right; an empty pattern interleaves the replacement).
* `get_first_available_port` becomes `get_first_available_port`, with the
  socket bind attempt abstracted as an oracle `bindOk : Nat → Bool`
  (`true` = the bind succeeds, `false` = the bind raises `OSError`).
* The `do_POST` dispatch of the request handler becomes `do_POST`, a pure
  function from the request path and the parsed JSON body to the response,
  the new flag-log file content, and the number of `interface.predict`
  invocations.  The injected interface object and the external image /
  numpy collaborators are fields of `Interface` / `Env`.  The flag log file
  is opened with mode `'a+'`, so a write extends the previous content; the
  state is therefore threaded as the file-content string.
* `translate_path` (three lines over the stdlib `SimpleHTTPRequestHandler`
  method, `os.path.relpath` and `os.path.join`) is embedded on path
  components (POSIX, percent-decoding already applied to the request path).
* `url_request` / `setup_tunnel` are embedded with the outcome of
  `urllib.request.urlopen(req, timeout=10)` as an oracle value: `.error`
  when `urlopen` raises (network error, timeout, or an HTTP error status —
  urllib raises for any final status outside 200..299), `.ok` with the
  response otherwise.
-/

set_option linter.unusedVariables false

/-! ### JSON values and `json.dumps` -/

/-- A Python value serializable by `json.dumps`: `None`, `bool`, `int`,
`str`, `list`, `dict` (dict members kept in insertion order, as Python
preserves and serializes them). -/
inductive Json where
  | null
  | bool (b : Bool)
  | num (n : Int)
  | str (s : String)
  | arr (es : List Json)
  | obj (ms : List (String × Json))

/-- Lowercase hexadecimal digit, as used by Python's `\uXXXX` escapes. -/
def hexChar (n : Nat) : Char :=
  if n < 10 then Char.ofNat (48 + n) else Char.ofNat (87 + n)

/-- Four lowercase hex digits of a code unit, as in Python's `\uXXXX`. -/
def hex4 (n : Nat) : String :=
  ⟨[hexChar (n / 4096 % 16), hexChar (n / 256 % 16), hexChar (n / 16 % 16), hexChar (n % 16)]⟩

/-- `json.encoder`'s per-character escaping with `ensure_ascii=True`:
two-character escapes for `"` `\` and the common controls, `\uXXXX` for the
other characters outside `0x20..0x7e` (surrogate pairs beyond the BMP). -/
def escapeChar (c : Char) : String :=
  if c = '"' then "\\\""
  else if c = '\\' then "\\\\"
  else if c = '\n' then "\\n"
  else if c = '\r' then "\\r"
  else if c = '\t' then "\\t"
  else if c.toNat = 8 then "\\b"
  else if c.toNat = 12 then "\\f"
  else if c.toNat < 32 ∨ c.toNat > 126 then
    if c.toNat < 65536 then "\\u" ++ hex4 c.toNat
    else "\\u" ++ hex4 (55296 + (c.toNat - 65536) / 1024) ++ "\\u" ++ hex4 (56320 + (c.toNat - 65536) % 1024)
  else ⟨[c]⟩

/-- `json.encoder.py_encode_basestring_ascii` without the surrounding
quotes: each character escaped and the results concatenated. -/
def escapeString (s : String) : String :=
  ⟨s.data.foldr (fun c acc => (escapeChar c).data ++ acc) []⟩

/-- Decimal digits of `n`, least significant first; fuel-driven (any
`fuel > n` is enough, `natRepr` passes `n + 1`). -/
def natDigitsRevFuel : Nat → Nat → List Char
  | 0, _ => []
  | fuel + 1, n => if n < 10 then [hexChar n] else hexChar (n % 10) :: natDigitsRevFuel fuel (n / 10)

/-- Python's `str` of a nonnegative integer. -/
def natRepr (n : Nat) : String :=
  ⟨(natDigitsRevFuel (n + 1) n).reverse⟩

/-- Python's `str`/`repr` of an `int`. -/
def intRepr (i : Int) : String :=
  if i < 0 then "-" ++ natRepr i.natAbs else natRepr i.natAbs

mutual

/-- `json.dumps` with default arguments: item separator `", "`, key
separator `": "`, `ensure_ascii` escaping, dict members in order. -/
def Json.dumps : Json → String
  | .null => "null"
  | .bool true => "true"
  | .bool false => "false"
  | .num n => intRepr n
  | .str s => "\"" ++ escapeString s ++ "\""
  | .arr es => "[" ++ Json.dumpsElems es ++ "]"
  | .obj ms => "\x7b" ++ Json.dumpsMembers ms ++ "\x7d"

/-- List items joined by `", "`. -/
def Json.dumpsElems : List Json → String
  | [] => ""
  | [e] => Json.dumps e
  | e :: e2 :: es => Json.dumps e ++ ", " ++ Json.dumpsElems (e2 :: es)

/-- Dict members `"key": value` joined by `", "`. -/
def Json.dumpsMembers : List (String × Json) → String
  | [] => ""
  | [(k, v)] => "\"" ++ escapeString k ++ "\": " ++ Json.dumps v
  | (k, v) :: m2 :: ms =>
      "\"" ++ escapeString k ++ "\": " ++ Json.dumps v ++ ", " ++ Json.dumpsMembers (m2 :: ms)

end

/-- Python subscript `msg["key"]` on a dict value (`none` models the
`KeyError` / `TypeError` raised when the key or the dict shape is absent). -/
def Json.lookup : Json → String → Option Json
  | .obj ms, key => List.lookup key ms
  | _, _ => none

/-! ### Template renderer: `render_string_or_list_with_tags` -/

/-- The pattern `r"{{" + key + r"}}"` built by the renderer. -/
def tagOf (key : String) : String :=
  "\x7b\x7b" ++ key ++ "\x7d\x7d"

/-- `pat` is a prefix of `s` (character lists). -/
def startsWithPat : List Char → List Char → Bool
  | [], _ => true
  | _ :: _, [] => false
  | p :: ps, c :: cs => p == c && startsWithPat ps cs

/-- `pat` occurs (contiguously) somewhere in `s`. -/
def hasPat (pat : List Char) : List Char → Bool
  | [] => pat.isEmpty
  | c :: rest => startsWithPat pat (c :: rest) || hasPat pat rest

/-- The tag of `key` occurs in `text`. -/
def tagOccurs (key text : String) : Bool :=
  hasPat (tagOf key).data text.data

/-- Scanning core of Python's `str.replace` for a nonempty pattern: walk
left to right, replace each (non-overlapping) occurrence, never rescan the
replacement.  One unit of fuel is spent per examined position; each step
consumes at least one character, so `fuel = s.length` is always enough. -/
def replaceFuel (pat rep : List Char) : Nat → List Char → List Char
  | _, [] => []
  | 0, s => s
  | fuel + 1, c :: rest =>
    if !pat.isEmpty && startsWithPat pat (c :: rest) then
      rep ++ replaceFuel pat rep fuel (List.drop (pat.length - 1) rest)
    else
      c :: replaceFuel pat rep fuel rest

/-- Python's `str.replace` on character lists (an empty pattern interleaves
the replacement around every character, as Python does). -/
def pyReplaceL (s pat rep : List Char) : List Char :=
  if pat.isEmpty then rep ++ s.foldr (fun c acc => c :: (rep ++ acc)) []
  else replaceFuel pat rep s.length s

/-- Python's `str.replace`. -/
def pyStrReplace (s pat rep : String) : String :=
  ⟨pyReplaceL s.data pat.data rep.data⟩

/-- The string branch of `render_string_or_list_with_tags`: for each
`(key, value)` of the context, in order, `old_lines =
old_lines.replace("{{" + key + "}}", value)`.  Context values are the
already-stringified `str(value)`. -/
def renderString (s : String) (context : List (String × String)) : String :=
  context.foldl (fun acc kv => pyStrReplace acc (tagOf kv.1) kv.2) s

/-- The `old_lines` argument: either a single string or a list of lines. -/
inductive StrOrList where
  | s (text : String)
  | l (lines : List String)
deriving DecidableEq

/-- `render_string_or_list_with_tags(old_lines, context)`. -/
def render_string_or_list_with_tags : StrOrList → List (String × String) → StrOrList
  | .s text, context => .s (renderString text context)
  | .l lines, context => .l (lines.map (fun line => renderString line context))

/-- Greedy left-to-right split of `s` at the occurrences of `pat` (the
scanning order of `replaceFuel`); the segments between occurrences, in
order.  Mirrors Python's `s.split(pat)` for a nonempty `pat`. -/
def splitFuel (pat : List Char) : Nat → List Char → List (List Char)
  | _, [] => [[]]
  | 0, s => [s]
  | fuel + 1, c :: rest =>
    if !pat.isEmpty && startsWithPat pat (c :: rest) then
      [] :: splitFuel pat fuel (List.drop (pat.length - 1) rest)
    else
      match splitFuel pat fuel rest with
      | [] => [[c]]
      | seg :: segs => (c :: seg) :: segs

/-- The segments of `s` between the occurrences of `pat` found by the
left-to-right scan of `str.replace`. -/
def pySplitSegs (s pat : String) : List (List Char) :=
  splitFuel pat.data s.data.length s.data

/-- Segments joined with a separator. -/
def joinWith (sep : List Char) : List (List Char) → List Char
  | [] => []
  | [x] => x
  | x :: y :: xs => x ++ sep ++ joinWith sep (y :: xs)

/-- Modelled from the spec (§4.1): the simultaneous reading of tag
substitution — scan the input once; wherever the tag of a context key
starts, emit that key's value and continue after the tag (the emitted value
is never rescanned); otherwise copy the character.  This definition exists
only to be compared with the sequential `renderString` the code implements. -/
def simultaneousSubstFuel (context : List (String × String)) : Nat → List Char → List Char
  | _, [] => []
  | 0, s => s
  | fuel + 1, c :: rest =>
    match context.find? (fun kv => startsWithPat (tagOf kv.1).data (c :: rest)) with
    | some kv => kv.2.data ++ simultaneousSubstFuel context fuel (List.drop ((tagOf kv.1).data.length - 1) rest)
    | none => c :: simultaneousSubstFuel context fuel rest

/-- Modelled from the spec (§4.1): simultaneous substitution on strings. -/
def simultaneousSubst (text : String) (context : List (String × String)) : String :=
  ⟨simultaneousSubstFuel context text.data.length text.data⟩

/-! ### Port allocator: `get_first_available_port` -/

/-- `LOCALHOST_NAME`. -/
def LOCALHOST_NAME : String := "localhost"

/-- `INITIAL_PORT_VALUE`. -/
def INITIAL_PORT_VALUE : Nat := 7860

/-- `TRY_NUM_PORTS`. -/
def TRY_NUM_PORTS : Nat := 100

/-- `get_first_available_port(initial, final)`: for each `port` in
`range(initial, final)` attempt a bind (the oracle `bindOk`; `false` means
the bind raised `OSError` and the loop moves on); return the first success,
otherwise raise `OSError` with the exhaustion message (the error the spec's
taxonomy names `PortExhaustionError`). -/
def get_first_available_port (bindOk : Nat → Bool) (initial final : Nat) : Except String Nat :=
  match (List.range' initial (final - initial)).find? bindOk with
  | some port => .ok port
  | none => .error ("All ports from " ++ natRepr initial ++ " to " ++ natRepr final
      ++ " are in use. Please close a port.")

/-! ### The prediction HTTP server: `do_POST` -/

/-- `FLAGGING_DIRECTORY`. -/
def FLAGGING_DIRECTORY : String := "static/flagged/"

/-- `FLAGGING_FILENAME`. -/
def FLAGGING_FILENAME : String := "data.txt"

/-- POSIX `os.path.join` for two components. -/
def ospath_join (a b : String) : String :=
  if b.startsWith "/" then b
  else if a = "" then b
  else if a.endsWith "/" then a ++ b
  else a ++ "/" ++ b

/-- The injected interface object (external collaborator): the three-stage
pipeline, the optional saliency capability (`interface.model_obj` already
applied, `.tolist()` folded into the returned `Json`), and the flagging
hooks of `input_interface` / `output_interface`. -/
structure Interface (V : Type) where
  preprocess : Json → V
  predict : V → V
  postprocess : V → Json
  saliency : Option (V → V → Json)
  input_rebuild_flagged : String → Json → Json
  output_rebuild_flagged : String → Json → Json
  input_save_to_file : String → V → Json

/-- The interface together with the external image / numpy collaborators
used by the auto-perturbation routes (`V` is the type of the opaque
image / tensor values flowing through them):
`decode_base64_to_image`, `img.convert('RGB')`, `img.resize((224, 224))`,
`img.rotate(deg)`, `ImageEnhance.Brightness(img).enhance(factor)`, and
`np.expand_dims(np.array(img) / 127.5 - 1, axis=0)`. -/
structure Env (V : Type) where
  interface : Interface V
  decode_base64_to_image : Json → V
  convert_RGB : V → V
  resize_224 : V → V
  rotate : Int → V → V
  enhance : ℚ → V → V
  to_model_input : V → V

/-- What the handler sends back: `ok body` for `_set_headers()` (HTTP 200,
`Content-type: application/json`) followed by `wfile.write(json.dumps(body))`
when `body = some _` (the `/api/flag/` branch writes no body), and `err`
for `send_error(code, message)`. -/
inductive Response where
  | ok (body : Option Json)
  | err (code : Nat) (message : String)

/-- The record `{'input': ..., 'output': ..., 'message': msg['data']['message']}`
appended by the `/api/flag/` branch (`message` is the looked-up value). -/
def flagRecord (V : Type) (env : Env V) (flag_dir : String) (msg message : Json) : Json :=
  Json.obj
    [("input", env.interface.input_rebuild_flagged flag_dir msg),
     ("output", env.interface.output_rebuild_flagged flag_dir msg),
     ("message", message)]

/-- Python `range(start, stop, step)` for a positive step. -/
def pyRange (start stop step : Int) : List Int :=
  if 0 < step then
    (List.range (((stop - start).toNat + step.toNat - 1) / step.toNat)).map
      (fun i => start + step * (i : Int))
  else []

/-- The rotation angles iterated by `/api/auto/rotation`:
`range(-180, 180 + 45, 45)`. -/
def rotationAngles : List Int := pyRange (-180) (180 + 45) 45

/-- The flag record appended by `/api/auto/rotation` for one angle `deg`:
rotate the (decoded, RGB, 224×224) image, re-predict on the normalized
array, post-process, and build
`{'input': save_to_file(...), 'output': rebuild_flagged(flag_dir,
{'data': {'output': processed_output}}), 'message': f'rotation by {deg} degrees'}`. -/
def rotationRecord (V : Type) (env : Env V) (flag_dir : String) (img_orig : V) (deg : Int) : Json :=
  let img := env.rotate deg img_orig
  let prediction := env.interface.predict (env.to_model_input img)
  let processed_output := env.interface.postprocess prediction
  Json.obj
    [("input", env.interface.input_save_to_file flag_dir img),
     ("output", env.interface.output_rebuild_flagged flag_dir
        (Json.obj [("data", Json.obj [("output", processed_output)])])),
     ("message", Json.str ("rotation by " ++ intRepr deg ++ " degrees"))]

/-- One iteration of the rotation loop: append the record (plus the
newline) to the flag file and count one `interface.predict` invocation. -/
def rotationStep (V : Type) (env : Env V) (flag_dir : String) (img_orig : V)
    (acc : String × Nat) (deg : Int) : String × Nat :=
  (acc.1 ++ Json.dumps (rotationRecord V env flag_dir img_orig deg) ++ "\n", acc.2 + 1)

/-- The flag record appended by `/api/auto/lighting` for one step `i`
(brightness factor `i / 4`, message `f'brighting adjustment by a factor of {i}'`). -/
def lightingRecord (V : Type) (env : Env V) (flag_dir : String) (img_orig : V) (i : Nat) : Json :=
  let img := env.enhance ((i : ℚ) / 4) img_orig
  let prediction := env.interface.predict (env.to_model_input img)
  let processed_output := env.interface.postprocess prediction
  Json.obj
    [("input", env.interface.input_save_to_file flag_dir img),
     ("output", env.interface.output_rebuild_flagged flag_dir
        (Json.obj [("data", Json.obj [("output", processed_output)])])),
     ("message", Json.str ("brighting adjustment by a factor of " ++ natRepr i))]

/-- One iteration of the lighting loop. -/
def lightingStep (V : Type) (env : Env V) (flag_dir : String) (img_orig : V)
    (acc : String × Nat) (i : Nat) : String × Nat :=
  (acc.1 ++ Json.dumps (lightingRecord V env flag_dir img_orig i) ++ "\n", acc.2 + 1)

/-- The `do_POST` dispatch of `HTTPHandler` in `serve_files_in_background`,
for a request whose body has already been read and `json.loads`-parsed into
`msg` (the claims quantify over valid requests; a missing subscript models
the `KeyError` Python would raise, aborting the handler).

Arguments: the captured `interface`-plus-collaborators `env`, the captured
`directory_to_serve`, the current content of the flag-log file
`directory_to_serve/static/flagged/data.txt` (opened with `'a+'`, hence
append-only), the request path, and the parsed body.

Result: the response, the new flag-log content, and how many times
`interface.predict` was invoked while handling the request. -/
def do_POST (V : Type) (env : Env V) (directory_to_serve : String) (flagFile : String)
    (path : String) (msg : Json) : Except String (Response × String × Nat) :=
  if path = "/api/predict/" then
    match msg.lookup "data" with
    | none => .error "KeyError: data"
    | some d =>
      let processed_input := env.interface.preprocess d
      let prediction := env.interface.predict processed_input
      let processed_output := env.interface.postprocess prediction
      let output := match env.interface.saliency with
        | none => Json.obj [("action", Json.str "output"), ("data", processed_output)]
        | some sal => Json.obj ([("action", Json.str "output"), ("data", processed_output)]
            ++ [("saliency", sal processed_input prediction)])
      .ok (Response.ok (some output), flagFile, 1)
  else if path = "/api/flag/" then
    match msg.lookup "data" with
    | none => .error "KeyError: data"
    | some d =>
      match d.lookup "message" with
      | none => .error "KeyError: message"
      | some message =>
        let flag_dir := ospath_join directory_to_serve FLAGGING_DIRECTORY
        let output := flagRecord V env flag_dir msg message
        .ok (Response.ok none, flagFile ++ Json.dumps output ++ "\n", 0)
  else if path = "/api/auto/rotation" then
    match msg.lookup "data" with
    | none => .error "KeyError: data"
    | some d =>
      let img_orig := env.resize_224 (env.convert_RGB (env.decode_base64_to_image d))
      let flag_dir := ospath_join directory_to_serve FLAGGING_DIRECTORY
      let result := rotationAngles.foldl (rotationStep V env flag_dir img_orig) (flagFile, 0)
      .ok (Response.ok (some (Json.obj [])), result.1, result.2)
  else if path = "/api/auto/lighting" then
    match msg.lookup "data" with
    | none => .error "KeyError: data"
    | some d =>
      let img_orig := env.resize_224 (env.convert_RGB (env.decode_base64_to_image d))
      let flag_dir := ospath_join directory_to_serve FLAGGING_DIRECTORY
      let result := (List.range 9).foldl (lightingStep V env flag_dir img_orig) (flagFile, 0)
      .ok (Response.ok (some (Json.obj [])), result.1, result.2)
  else
    .ok (Response.err 404 ("Path not found: " ++ path), flagFile, 0)

/-- The flag-log content after a sequence of `/api/flag/` requests, each
handled to completion before the next (the accept loop is sequential). -/
def runFlagCalls (V : Type) (env : Env V) (directory_to_serve : String)
    (msgs : List Json) (flagFile : String) : Except String String :=
  msgs.foldlM
    (fun st m => (do_POST V env directory_to_serve st "/api/flag/" m).map (fun r => r.2.1)) flagFile

/-- The body `msg` carries `msg['data']['message']`. -/
def validFlagMsg (msg : Json) : Bool :=
  (((msg.lookup "data").bind (fun d => d.lookup "message")).isSome)

/-- Flag-log text contributed by a list of records: each serialized record
followed by a newline. -/
def concatLines (recs : List Json) : String :=
  recs.foldr (fun r acc => Json.dumps r ++ "\n" ++ acc) ""

/-- A trivial concrete interface over `V := Unit`, used to instantiate the
theorems at concrete inputs. -/
def unitInterface : Interface Unit :=
  { preprocess := fun _ => ()
    predict := id
    postprocess := fun _ => Json.str "label"
    saliency := none
    input_rebuild_flagged := fun _ _ => Json.str "in"
    output_rebuild_flagged := fun _ _ => Json.str "out"
    input_save_to_file := fun _ _ => Json.str "file" }

/-- A trivial concrete environment over `V := Unit`. -/
def unitEnv : Env Unit :=
  { interface := unitInterface
    decode_base64_to_image := fun _ => ()
    convert_RGB := id
    resize_224 := id
    rotate := fun _ => id
    enhance := fun _ => id
    to_model_input := id }

/-! ### Static path translation: `HTTPHandler.translate_path` -/

/-- The component loop of `posixpath.normpath`: drop empty and `.`
components; `..` pops a previous component when possible, is kept at the
start of a relative path, and is dropped at the root of an absolute one. -/
def normpathComps (absolute : Bool) (comps : List String) : List String :=
  comps.foldl
    (fun acc comp =>
      if comp = "" ∨ comp = "." then acc
      else if comp ≠ ".." ∨ (¬ absolute ∧ acc = []) ∨ acc.getLast? = some ".." then acc ++ [comp]
      else acc.dropLast)
    []

/-- The stdlib `SimpleHTTPRequestHandler.translate_path` reduced to the
path components it appends under its root: discard query and fragment,
normalize (`posixpath.normpath`), split on `/`, and keep only the words
that are not empty, not `.` and not `..`.  The input is the request path
with percent-decoding already applied. -/
def stdTranslateWords (p : String) : List String :=
  let p0 := ((p.splitOn "?").headD "").splitOn "#" |>.headD ""
  let normed := normpathComps (p0.startsWith "/") (p0.splitOn "/")
  normed.filter (fun w => ¬ (w = "" ∨ w = "." ∨ w = ".."))

/-- Length of the longest common prefix of two component lists. -/
def commonPrefixLen : List String → List String → Nat
  | a :: as, b :: bs => if a = b then 1 + commonPrefixLen as bs else 0
  | _, _ => 0

/-- `os.path.relpath(path, start)` on absolute component lists: strip the
common prefix, climb with `..` for what is left of `start`, else `.`. -/
def relpathComps (path start : List String) : List String :=
  let i := commonPrefixLen start path
  let rel := List.replicate (start.length - i) ".." ++ path.drop i
  if rel = [] then ["."] else rel

/-- The handler's `translate_path` override on path components: the stdlib
translation rooted at `cwd` (`os.getcwd()`), then
`os.path.relpath(path, os.getcwd())`, then
`os.path.join(self.server.base_path, relpath)` (the relative path is
appended to the serve root `base`). -/
def translate_path (base cwd : List String) (p : String) : List String :=
  let path := cwd ++ stdTranslateWords p
  let rel := relpathComps path cwd
  base ++ rel

/-! ### Tunnel setup: `url_request` and `setup_tunnel` -/

/-- `GRADIO_API_SERVER`. -/
def GRADIO_API_SERVER : String := "https://api.gradio.app/v1/tunnel-request"

/-- A Python exception as the tunnel code observes it: either one raised by
a collaborator (`urlopen`, `json.loads`, indexing, `create_tunnel`), or the
`RuntimeError(str(e))` wrapper this module raises. -/
inductive PyExn where
  | runtimeError (msg : String)
  | collaborator (msg : String)
deriving DecidableEq

/-- Python's `str(e)`. -/
def exnStr : PyExn → String
  | .runtimeError m => m
  | .collaborator m => m

/-- The object returned by a successful `urlopen`: `response.code` and the
decoded `response.read()`. -/
structure UrlResponse where
  code : Nat
  body : String
deriving DecidableEq

/-- The fixed timeout handed to `urlopen(req, timeout=10)`, in seconds. -/
def URL_REQUEST_TIMEOUT_SECONDS : Nat := 10

/-- `url_request(url)`: perform the request (its outcome, including
network errors, timeouts and HTTP error statuses raised by `urlopen`, is
the oracle argument) and re-raise any exception as `RuntimeError(str(e))`. -/
def url_request (urlopen_result : Except PyExn UrlResponse) : Except PyExn UrlResponse :=
  match urlopen_result with
  | .ok res => .ok res
  | .error e => .error (.runtimeError (exnStr e))

/-- The body of `setup_tunnel`'s `try` block: parse
`json.loads(response.read())[0]` and hand the payload to `create_tunnel`
(an external collaborator, like `loads`). -/
def tunnel_block (loads : String → Except PyExn Json)
    (create_tunnel : Json → Except PyExn String) (body : String) : Except PyExn String := do
  let parsed ← loads body
  let payload ← (match parsed with
    | Json.arr (x :: _) => Except.ok x
    | _ => Except.error (PyExn.collaborator "list index out of range"))
  create_tunnel payload

/-- `setup_tunnel(local_server_port)`: call `url_request(GRADIO_API_SERVER)`;
if the response has code 200, run the `try` block (`tunnel_block`),
wrapping any exception it raises as `RuntimeError(str(e))`; for any other
code the function falls off its end and returns `None` (`.ok none`). -/
def setup_tunnel (urlopen_result : Except PyExn UrlResponse)
    (loads : String → Except PyExn Json) (create_tunnel : Json → Except PyExn String) :
    Except PyExn (Option String) :=
  match url_request urlopen_result with
  | .error e => .error e
  | .ok response =>
    if response.code = 200 then
      match tunnel_block loads create_tunnel response.body with
      | .ok share_url => .ok (some share_url)
      | .error e => .error (.runtimeError (exnStr e))
    else
      .ok none

/-! ### Serialized JSON contains no newline

`json.dumps` (default arguments) never emits a literal newline: every
control character of a string is escaped, and the punctuation it inserts is
newline-free.  This is what makes one `f.write(json.dumps(output))` plus
one `f.write("\n")` produce exactly one log line. -/

theorem nl_not_mem_append {a b : String} (ha : '\n' ∉ a.data) (hb : '\n' ∉ b.data) :
    '\n' ∉ (a ++ b).data := by
  rw [String.data_append]
  simp [List.mem_append, ha, hb]

theorem hexChar_ne_nl : ∀ n : Nat, n < 16 → hexChar n ≠ '\n' := by decide

theorem nl_not_mem_hex4 (n : Nat) : '\n' ∉ (hex4 n).data := by
  intro hmem
  simp only [hex4, String.data] at hmem
  rcases List.mem_cons.mp hmem with h | hmem
  · exact hexChar_ne_nl _ (Nat.mod_lt _ (by norm_num)) h.symm
  rcases List.mem_cons.mp hmem with h | hmem
  · exact hexChar_ne_nl _ (Nat.mod_lt _ (by norm_num)) h.symm
  rcases List.mem_cons.mp hmem with h | hmem
  · exact hexChar_ne_nl _ (Nat.mod_lt _ (by norm_num)) h.symm
  rcases List.mem_cons.mp hmem with h | hmem
  · exact hexChar_ne_nl _ (Nat.mod_lt _ (by norm_num)) h.symm
  · exact List.not_mem_nil _ hmem

theorem nl_not_mem_escapeChar (c : Char) : '\n' ∉ (escapeChar c).data := by
  unfold escapeChar
  split
  · decide
  split
  · decide
  split
  · decide
  split
  · decide
  split
  · decide
  split
  · decide
  split
  · decide
  split
  · split
    · exact nl_not_mem_append (by decide) (nl_not_mem_hex4 _)
    · exact nl_not_mem_append
        (nl_not_mem_append (nl_not_mem_append (by decide) (nl_not_mem_hex4 _)) (by decide))
        (nl_not_mem_hex4 _)
  · rename_i hrange
    intro hmem
    have hc : c = '\n' := by
      have : '\n' = c := by simpa using hmem
      exact this.symm
    rw [hc] at hrange
    exact hrange (Or.inl (by decide))

theorem nl_not_mem_escapeString (s : String) : '\n' ∉ (escapeString s).data := by
  show '\n' ∉ s.data.foldr (fun c acc => (escapeChar c).data ++ acc) []
  induction s.data with
  | nil => simp
  | cons c cs ih =>
    simp only [List.foldr_cons]
    intro h
    rcases List.mem_append.mp h with h | h
    · exact nl_not_mem_escapeChar c h
    · exact ih h

theorem nl_not_mem_natDigits (fuel n : Nat) : '\n' ∉ natDigitsRevFuel fuel n := by
  induction fuel generalizing n with
  | zero => simp [natDigitsRevFuel]
  | succ fuel ih =>
    simp only [natDigitsRevFuel]
    split
    · intro hmem
      rcases List.mem_cons.mp hmem with h | h
      · exact hexChar_ne_nl n (by omega) h.symm
      · exact List.not_mem_nil _ h
    · intro hmem
      rcases List.mem_cons.mp hmem with h | h
      · exact hexChar_ne_nl _ (by omega) h.symm
      · exact ih (n / 10) h

theorem nl_not_mem_natRepr (n : Nat) : '\n' ∉ (natRepr n).data := by
  show '\n' ∉ (natDigitsRevFuel (n + 1) n).reverse
  intro h
  exact nl_not_mem_natDigits _ _ (List.mem_reverse.mp h)

theorem nl_not_mem_intRepr (i : Int) : '\n' ∉ (intRepr i).data := by
  unfold intRepr
  split
  · exact nl_not_mem_append (by decide) (nl_not_mem_natRepr _)
  · exact nl_not_mem_natRepr _

theorem nl_not_mem_dumps (j : Json) : '\n' ∉ (Json.dumps j).data := by
  refine Json.dumps.induct (fun j => '\n' ∉ (Json.dumps j).data)
    (fun ms => '\n' ∉ (Json.dumpsMembers ms).data)
    (fun es => '\n' ∉ (Json.dumpsElems es).data)
    ?_ ?_ ?_ ?_ ?_ ?_ ?_ ?_ ?_ ?_ ?_ ?_ ?_ j
  · simp only [Json.dumps]; decide
  · simp only [Json.dumps]; decide
  · simp only [Json.dumps]; decide
  · intro n; simp only [Json.dumps]; exact nl_not_mem_intRepr n
  · intro s
    simp only [Json.dumps]
    exact nl_not_mem_append (nl_not_mem_append (by decide) (nl_not_mem_escapeString s)) (by decide)
  · intro es ih
    simp only [Json.dumps]
    exact nl_not_mem_append (nl_not_mem_append (by decide) ih) (by decide)
  · intro ms ih
    simp only [Json.dumps]
    exact nl_not_mem_append (nl_not_mem_append (by decide) ih) (by decide)
  · simp only [Json.dumpsElems]; decide
  · intro e ih; simp only [Json.dumpsElems]; exact ih
  · intro e e2 es ih1 ih2
    simp only [Json.dumpsElems]
    exact nl_not_mem_append (nl_not_mem_append ih1 (by decide)) ih2
  · simp only [Json.dumpsMembers]; decide
  · intro k v ih
    simp only [Json.dumpsMembers]
    exact nl_not_mem_append
      (nl_not_mem_append (nl_not_mem_append (by decide) (nl_not_mem_escapeString k)) (by decide)) ih
  · intro k v m2 ms ih1 ih2
    simp only [Json.dumpsMembers]
    exact nl_not_mem_append (nl_not_mem_append (nl_not_mem_append (nl_not_mem_append
      (nl_not_mem_append (by decide) (nl_not_mem_escapeString k)) (by decide)) ih1) (by decide)) ih2

/-! ### Renderer lemmas -/

theorem tagOf_data (k : String) :
    (tagOf k).data = '\x7b' :: '\x7b' :: (k.data ++ ['\x7d', '\x7d']) := by
  show (("\x7b\x7b" ++ k ++ "\x7d\x7d") : String).data = _
  rw [String.data_append, String.data_append]
  rw [show ("\x7b\x7b" : String).data = ['\x7b', '\x7b'] from rfl,
      show ("\x7d\x7d" : String).data = ['\x7d', '\x7d'] from rfl]
  simp

theorem tagOf_data_ne_nil (k : String) : (tagOf k).data ≠ [] := by
  rw [tagOf_data]
  simp

theorem startsWithPat_iff (pat : List Char) :
    ∀ s : List Char, startsWithPat pat s = true ↔ ∃ t, s = pat ++ t := by
  induction pat with
  | nil =>
    intro s
    simp [startsWithPat]
  | cons p ps ih =>
    intro s
    cases s with
    | nil =>
      simp [startsWithPat]
    | cons c cs =>
      simp only [startsWithPat, Bool.and_eq_true, beq_iff_eq, ih cs, List.cons_append]
      constructor
      · rintro ⟨rfl, t, rfl⟩
        exact ⟨t, rfl⟩
      · rintro ⟨t, h⟩
        injection h with h1 h2
        exact ⟨h1.symm, t, h2⟩

theorem hasPat_cons_false (pat : List Char) (c : Char) (rest : List Char)
    (h : hasPat pat (c :: rest) = false) :
    startsWithPat pat (c :: rest) = false ∧ hasPat pat rest = false := by
  simpa [hasPat, Bool.or_eq_false_iff] using h

theorem isEmpty_false_of_hasPat_false {pat s : List Char} (h : hasPat pat s = false) :
    pat.isEmpty = false := by
  cases s with
  | nil => simpa [hasPat] using h
  | cons c rest =>
    rcases hasPat_cons_false pat c rest h with ⟨h1, _⟩
    cases pat with
    | nil => simp [startsWithPat] at h1
    | cons p ps => rfl

theorem replaceFuel_self {pat : List Char} (rep : List Char) :
    ∀ (s : List Char) (fuel : Nat), hasPat pat s = false → replaceFuel pat rep fuel s = s := by
  intro s
  induction s with
  | nil => intro fuel h; cases fuel <;> rfl
  | cons c rest ih =>
    intro fuel h
    rcases hasPat_cons_false pat c rest h with ⟨h1, h2⟩
    cases fuel with
    | zero => rfl
    | succ fuel =>
      simp only [replaceFuel, h1, Bool.and_false]
      rw [if_neg (by simp), ih fuel h2]

theorem pyReplaceL_self {pat : List Char} (rep s : List Char) (h : hasPat pat s = false) :
    pyReplaceL s pat rep = s := by
  unfold pyReplaceL
  rw [isEmpty_false_of_hasPat_false h]
  simp only [Bool.false_eq_true, if_false]
  exact replaceFuel_self rep s s.length h

theorem pyStrReplace_self (s pat rep : String) (h : hasPat pat.data s.data = false) :
    pyStrReplace s pat rep = s := by
  unfold pyStrReplace
  rw [pyReplaceL_self rep.data s.data h]

theorem renderString_self (s : String) (ctx : List (String × String))
    (h : ∀ kv ∈ ctx, tagOccurs kv.1 s = false) :
    renderString s ctx = s := by
  induction ctx with
  | nil => rfl
  | cons kv rest ih =>
    show List.foldl _ (pyStrReplace s (tagOf kv.1) kv.2) rest = s
    rw [pyStrReplace_self s (tagOf kv.1) kv.2 (h kv (List.mem_cons_self kv rest))]
    exact ih (fun kv' h' => h kv' (List.mem_cons_of_mem kv h'))

theorem splitFuel_ne_nil (pat : List Char) :
    ∀ (fuel : Nat) (s : List Char), splitFuel pat fuel s ≠ [] := by
  intro fuel s
  cases s with
  | nil => cases fuel <;> simp [splitFuel]
  | cons c rest =>
    cases fuel with
    | zero => simp [splitFuel]
    | succ fuel =>
      simp only [splitFuel]
      split
      · simp
      · split <;> simp

theorem joinWith_cons_head (sep : List Char) (c : Char) (seg : List Char)
    (segs : List (List Char)) :
    joinWith sep ((c :: seg) :: segs) = c :: joinWith sep (seg :: segs) := by
  cases segs <;> simp [joinWith, List.cons_append]

theorem replaceFuel_eq_joinWith (pat rep : List Char) :
    ∀ (fuel : Nat) (s : List Char),
      replaceFuel pat rep fuel s = joinWith rep (splitFuel pat fuel s) := by
  intro fuel
  induction fuel with
  | zero =>
    intro s
    cases s <;> simp [replaceFuel, splitFuel, joinWith]
  | succ fuel ih =>
    intro s
    cases s with
    | nil => simp [replaceFuel, splitFuel, joinWith]
    | cons c rest =>
      simp only [replaceFuel, splitFuel]
      split
      · rcases List.exists_cons_of_ne_nil
          (splitFuel_ne_nil pat fuel (List.drop (pat.length - 1) rest)) with ⟨seg, segs, hseg⟩
        rw [ih, hseg]
        simp [joinWith]
      · rcases List.exists_cons_of_ne_nil (splitFuel_ne_nil pat fuel rest) with ⟨seg, segs, hseg⟩
        rw [ih rest, hseg, joinWith_cons_head]

theorem drop_of_startsWith {pat t : List Char} (c : Char) (rest : List Char)
    (hpat : pat ≠ []) (ht : c :: rest = pat ++ t) :
    List.drop (pat.length - 1) rest = t := by
  cases pat with
  | nil => exact absurd rfl hpat
  | cons p ps =>
    rw [List.cons_append] at ht
    injection ht with h1 h2
    subst h2
    simp [List.drop_left]

theorem joinWith_splitFuel (pat : List Char) :
    ∀ (fuel : Nat) (s : List Char), s.length ≤ fuel →
      joinWith pat (splitFuel pat fuel s) = s := by
  intro fuel
  induction fuel with
  | zero =>
    intro s hs
    have h0 : s = [] := List.eq_nil_of_length_eq_zero (Nat.le_zero.mp hs)
    subst h0
    simp [splitFuel, joinWith]
  | succ fuel ih =>
    intro s hs
    cases s with
    | nil => simp [splitFuel, joinWith]
    | cons c rest =>
      have hrest_len : rest.length ≤ fuel := by
        simp only [List.length_cons] at hs
        omega
      simp only [splitFuel]
      split
      · rename_i hcond
        have hboth := hcond
        simp only [Bool.and_eq_true] at hboth
        rcases hboth with ⟨hne, hsw⟩
        have hpat : pat ≠ [] := by
          cases pat with
          | nil => simp at hne
          | cons p ps => simp
        rcases (startsWithPat_iff pat (c :: rest)).mp hsw with ⟨t, ht⟩
        have hdrop : List.drop (pat.length - 1) rest = t := drop_of_startsWith c rest hpat ht
        rcases List.exists_cons_of_ne_nil
          (splitFuel_ne_nil pat fuel (List.drop (pat.length - 1) rest)) with ⟨seg, segs, hseg⟩
        have hlen : (List.drop (pat.length - 1) rest).length ≤ fuel := by
          simp only [List.length_drop]
          omega
        rw [hseg]
        show joinWith pat ([] :: seg :: segs) = c :: rest
        have hjoin : joinWith pat ([] :: seg :: segs) = pat ++ joinWith pat (seg :: segs) := by
          simp [joinWith]
        rw [hjoin, ← hseg, ih _ hlen, hdrop, ← ht]
      · rcases List.exists_cons_of_ne_nil (splitFuel_ne_nil pat fuel rest) with ⟨seg, segs, hseg⟩
        rw [hseg, joinWith_cons_head, ← hseg, ih rest hrest_len]

theorem startsWithPat_extend {pat u : List Char} (t : List Char)
    (h : startsWithPat pat u = true) : startsWithPat pat (u ++ t) = true := by
  rcases (startsWithPat_iff pat u).mp h with ⟨w, hw⟩
  exact (startsWithPat_iff pat (u ++ t)).mpr ⟨w ++ t, by rw [hw, List.append_assoc]⟩

theorem splitFuel_segs_no_pat (pat : List Char) (hpat : pat ≠ []) :
    ∀ (fuel : Nat) (s : List Char), s.length ≤ fuel →
      ∀ seg ∈ splitFuel pat fuel s, hasPat pat seg = false := by
  have hie : pat.isEmpty = false := by
    cases pat with
    | nil => exact absurd rfl hpat
    | cons p ps => rfl
  intro fuel
  induction fuel with
  | zero =>
    intro s hs seg hseg
    have h0 : s = [] := List.eq_nil_of_length_eq_zero (Nat.le_zero.mp hs)
    subst h0
    simp only [splitFuel, List.mem_singleton] at hseg
    subst hseg
    simpa [hasPat] using hie
  | succ fuel ih =>
    intro s hs seg hseg
    cases s with
    | nil =>
      simp only [splitFuel, List.mem_singleton] at hseg
      subst hseg
      simpa [hasPat] using hie
    | cons c rest =>
      have hrest_len : rest.length ≤ fuel := by
        simp only [List.length_cons] at hs
        omega
      simp only [splitFuel] at hseg
      by_cases hcond : (!pat.isEmpty && startsWithPat pat (c :: rest)) = true
      · rw [if_pos hcond] at hseg
        rcases List.mem_cons.mp hseg with h | h
        · subst h
          simpa [hasPat] using hie
        · have hlen : (List.drop (pat.length - 1) rest).length ≤ fuel := by
            simp only [List.length_drop]
            omega
          exact ih _ hlen seg h
      · rw [if_neg hcond] at hseg
        have hsw : startsWithPat pat (c :: rest) = false := by
          cases hsw' : startsWithPat pat (c :: rest) with
          | false => rfl
          | true => exact absurd (by simp [hie, hsw']) hcond
        rcases hrest : splitFuel pat fuel rest with _ | ⟨seg1, segs⟩
        · exact absurd hrest (splitFuel_ne_nil pat fuel rest)
        · rw [hrest] at hseg
          rcases List.mem_cons.mp hseg with h | h
          · subst h
            have hseg1 : hasPat pat seg1 = false :=
              ih rest hrest_len seg1 (by rw [hrest]; exact List.mem_cons_self _ _)
            have hpre : ∃ t, rest = seg1 ++ t := by
              have hj := joinWith_splitFuel pat fuel rest hrest_len
              rw [hrest] at hj
              cases segs with
              | nil => exact ⟨[], by simpa [joinWith] using hj.symm⟩
              | cons y ys =>
                refine ⟨pat ++ joinWith pat (y :: ys), ?_⟩
                rw [← hj]
                simp [joinWith, List.append_assoc]
            rcases hpre with ⟨t, ht⟩
            simp only [hasPat, Bool.or_eq_false_iff]
            refine ⟨?_, hseg1⟩
            cases hsw2 : startsWithPat pat (c :: seg1) with
            | false => rfl
            | true =>
              have hext : startsWithPat pat ((c :: seg1) ++ t) = true :=
                startsWithPat_extend t hsw2
              rw [List.cons_append, ← ht] at hext
              rw [hext] at hsw
              exact Bool.noConfusion hsw
          · exact ih rest hrest_len seg (by rw [hrest]; exact List.mem_cons_of_mem _ h)

theorem pyStrReplace_tag_spec (s v : String) (k : String) :
    pyStrReplace s (tagOf k) v = ⟨joinWith v.data (pySplitSegs s (tagOf k))⟩
  ∧ s = ⟨joinWith (tagOf k).data (pySplitSegs s (tagOf k))⟩
  ∧ ∀ seg ∈ pySplitSegs s (tagOf k), hasPat (tagOf k).data seg = false := by
  have hpat : (tagOf k).data ≠ [] := tagOf_data_ne_nil k
  have hie : (tagOf k).data.isEmpty = false := by
    cases hh : (tagOf k).data with
    | nil => exact absurd hh hpat
    | cons a b => rfl
  refine ⟨?_, ?_, ?_⟩
  · show (⟨pyReplaceL s.data (tagOf k).data v.data⟩ : String) = _
    unfold pyReplaceL
    rw [hie]
    simp only [Bool.false_eq_true, if_false]
    rw [replaceFuel_eq_joinWith]
    rfl
  · have hj := joinWith_splitFuel (tagOf k).data s.data.length s.data (Nat.le_refl _)
    show s = ⟨joinWith (tagOf k).data (splitFuel (tagOf k).data s.data.length s.data)⟩
    rw [hj]
  · exact splitFuel_segs_no_pat (tagOf k).data hpat s.data.length s.data (Nat.le_refl _)

/-- C2: the renderer substitutes tags per key over the whole context.  For
the string case, `render_string_or_list_with_tags` is exactly the loop that
takes each `(key, value)` of the context in order and performs one complete
replacement of `{{key}}` by the stringified value; one such replacement
step is characterized by a decomposition of its input into segments that
contain no occurrence of the tag, reassembling to the input with the tag as
separator and to the output with the value as separator (all occurrences
replaced, nothing else touched).  Tags whose keys are not in the context
are left verbatim: a context none of whose tags occurs leaves the text
unchanged, and no error is raised (the renderer is total).  For the list
case the same full-context rendering is applied to each line independently,
preserving the count and order of the lines. -/
theorem C2_render_replaces_tags (lines : List String) (ctx : List (String × String))
    (text k v : String) :
    (∃ out : List String,
        render_string_or_list_with_tags (.l lines) ctx = .l out
      ∧ out.length = lines.length
      ∧ ∀ i : Nat, out[i]? = (lines[i]?).map (fun line => renderString line ctx))
  ∧ render_string_or_list_with_tags (.s text) ctx = .s (renderString text ctx)
  ∧ renderString text ctx = ctx.foldl (fun acc kv => pyStrReplace acc (tagOf kv.1) kv.2) text
  ∧ (pyStrReplace text (tagOf k) v = ⟨joinWith v.data (pySplitSegs text (tagOf k))⟩
      ∧ text = ⟨joinWith (tagOf k).data (pySplitSegs text (tagOf k))⟩
      ∧ ∀ seg ∈ pySplitSegs text (tagOf k), hasPat (tagOf k).data seg = false)
  ∧ ((∀ kv ∈ ctx, tagOccurs kv.1 text = false) → renderString text ctx = text) := by
  refine ⟨⟨lines.map (fun line => renderString line ctx), rfl, List.length_map _ _, ?_⟩,
    rfl, rfl, pyStrReplace_tag_spec text v k, renderString_self text ctx⟩
  intro i
  rw [List.getElem?_map]

theorem C2_render_replaces_tags_witness :
    renderString "Hi \x7b\x7bmissing\x7d\x7d" [("name", "X")] = "Hi \x7b\x7bmissing\x7d\x7d"
  ∧ render_string_or_list_with_tags (.l ["Hello \x7b\x7bname\x7d\x7d!"]) [("name", "X")]
      = .l ["Hello X!"] := by
  constructor
  · exact (C2_render_replaces_tags [] [("name", "X")] "Hi \x7b\x7bmissing\x7d\x7d" "name" "X").2.2.2.2
      (by decide)
  · decide

/-- C9: for a context none of whose keys' tags occur in the text, rendering
returns the text unchanged, and rendering twice with such a context is the
identity as well (idempotence for unrelated contexts). -/
theorem C9_render_unrelated_context_id (text : String) (ctx : List (String × String))
    (h : ∀ kv ∈ ctx, tagOccurs kv.1 text = false) :
    renderString text ctx = text ∧ renderString (renderString text ctx) ctx = text := by
  have h1 := renderString_self text ctx h
  exact ⟨h1, by rw [h1, h1]⟩

theorem C9_render_unrelated_context_id_witness :
    renderString "Hello \x7b\x7bmissing\x7d\x7d!" [("name", "X")] = "Hello \x7b\x7bmissing\x7d\x7d!"
  ∧ renderString (renderString "Hello \x7b\x7bmissing\x7d\x7d!" [("name", "X")]) [("name", "X")]
      = "Hello \x7b\x7bmissing\x7d\x7d!" :=
  C9_render_unrelated_context_id "Hello \x7b\x7bmissing\x7d\x7d!" [("name", "X")] (by decide)

/-- C10: the renderer applies the context entries sequentially, in order,
not simultaneously.  With context entries `b ↦ "{{a}}"`, `a ↦ "A"` on input
`"{{b}}"`, the value substituted for the earlier key contains the tag of the
later key `a`, and that embedded tag is itself replaced, giving `"A"`;
simultaneous (single-pass) substitution yields `"{{a}}"` instead, and
reversing the order of the two context entries also yields `"{{a}}"` — so
the result differs from simultaneous substitution and depends on the order
of the context's entries. -/
theorem C10_sequential_not_simultaneous :
    renderString "\x7b\x7bb\x7d\x7d" [("b", "\x7b\x7ba\x7d\x7d"), ("a", "A")] = "A"
  ∧ renderString "\x7b\x7bb\x7d\x7d" [("a", "A"), ("b", "\x7b\x7ba\x7d\x7d")] = "\x7b\x7ba\x7d\x7d"
  ∧ simultaneousSubst "\x7b\x7bb\x7d\x7d" [("b", "\x7b\x7ba\x7d\x7d"), ("a", "A")] = "\x7b\x7ba\x7d\x7d"
  ∧ renderString "\x7b\x7bb\x7d\x7d" [("b", "\x7b\x7ba\x7d\x7d"), ("a", "A")]
      ≠ simultaneousSubst "\x7b\x7bb\x7d\x7d" [("b", "\x7b\x7ba\x7d\x7d"), ("a", "A")]
  ∧ renderString "\x7b\x7bb\x7d\x7d" [("b", "\x7b\x7ba\x7d\x7d"), ("a", "A")]
      ≠ renderString "\x7b\x7bb\x7d\x7d" [("a", "A"), ("b", "\x7b\x7ba\x7d\x7d")] :=
  ⟨by decide, by decide, by decide, by decide, by decide⟩

/-! ### Port allocator lemmas -/

theorem find?_range'_first (f : Nat → Bool) :
    ∀ (n s p : Nat), (List.range' s n).find? f = some p →
      s ≤ p ∧ p < s + n ∧ f p = true ∧ ∀ q, s ≤ q → q < p → f q = false := by
  intro n
  induction n with
  | zero =>
    intro s p h
    simp [List.range'] at h
  | succ n ih =>
    intro s p h
    rw [List.range'_succ] at h
    cases hfs : f s with
    | true =>
      rw [List.find?_cons_of_pos _ hfs] at h
      have hp : s = p := by simpa using h
      subst hp
      exact ⟨Nat.le_refl s, by omega, hfs, fun q h1 h2 => absurd (Nat.lt_of_le_of_lt h1 h2) (Nat.lt_irrefl s)⟩
    | false =>
      rw [List.find?_cons_of_neg _ (by simp [hfs])] at h
      obtain ⟨h1, h2, h3, h4⟩ := ih (s + 1) p h
      refine ⟨by omega, by omega, h3, fun q hq1 hq2 => ?_⟩
      rcases Nat.eq_or_lt_of_le hq1 with rfl | hlt
      · exact hfs
      · exact h4 q hlt hq2

/-- C3: `get_first_available_port(initial, final)` scans the ports of
`range(initial, final)` in increasing order and returns the first port for
which the bind attempt succeeds — deterministically the lowest free port of
the range; if the bind fails for every port of the range, it raises the
exhaustion `OSError` (the error the spec's taxonomy calls
`PortExhaustionError`), naming the range. -/
theorem C3_port_scan (bindOk : Nat → Bool) (initial final : Nat) :
    (∀ p, get_first_available_port bindOk initial final = .ok p →
        initial ≤ p ∧ p < final ∧ bindOk p = true ∧ ∀ q, initial ≤ q → q < p → bindOk q = false)
  ∧ ((∀ q, initial ≤ q → q < final → bindOk q = false) →
      get_first_available_port bindOk initial final
        = .error ("All ports from " ++ natRepr initial ++ " to " ++ natRepr final
            ++ " are in use. Please close a port.")) := by
  constructor
  · intro p hp
    unfold get_first_available_port at hp
    cases hfind : (List.range' initial (final - initial)).find? bindOk with
    | none => rw [hfind] at hp; exact absurd hp (by simp)
    | some q =>
      rw [hfind] at hp
      have hqp : q = p := by simpa using hp
      subst hqp
      obtain ⟨h1, h2, h3, h4⟩ := find?_range'_first bindOk (final - initial) initial q hfind
      exact ⟨h1, by omega, h3, h4⟩
  · intro hall
    unfold get_first_available_port
    have hnone : (List.range' initial (final - initial)).find? bindOk = none := by
      rw [List.find?_eq_none]
      intro x hx
      have hmem := List.mem_range'_1.mp hx
      simp [hall x hmem.1 (by omega)]
    rw [hnone]

theorem C3_port_scan_witness :
    get_first_available_port (fun q => decide (7865 ≤ q)) 7860 7960 = .ok 7865
  ∧ 7860 ≤ 7865 ∧ 7865 < 7960 ∧ (fun q => decide (7865 ≤ q)) 7865 = true
  ∧ get_first_available_port (fun _ => false) 7860 7960
      = .error ("All ports from " ++ natRepr 7860 ++ " to " ++ natRepr 7960
          ++ " are in use. Please close a port.") := by
  have h := (C3_port_scan (fun q => decide (7865 ≤ q)) 7860 7960).1 7865 (by rfl)
  exact ⟨by rfl, h.1, h.2.1, h.2.2.1,
    (C3_port_scan (fun _ => false) 7860 7960).2 (fun q h1 h2 => rfl)⟩

/-! ### Prediction server theorems -/

/-- C1: for a valid POST to `/api/predict/` with body `{data: d}`, the
handler responds 200 with a JSON body whose `data` field is exactly
`postprocess(predict(preprocess(d)))` for the injected interface — the
server adds no transformation of its own (the only other fields are the
constant `action` tag and, when the interface declares a saliency function,
the `saliency` array).  The flag log is untouched and `predict` runs once. -/
theorem C1_predict_pipeline (V : Type) (env : Env V) (dir st : String) (msg d : Json)
    (h : msg.lookup "data" = some d) :
    ∃ body : Json,
      do_POST V env dir st "/api/predict/" msg = .ok (Response.ok (some body), st, 1)
    ∧ body.lookup "data" = some (env.interface.postprocess (env.interface.predict
        (env.interface.preprocess d))) := by
  unfold do_POST
  rw [if_pos rfl, h]
  cases hs : env.interface.saliency with
  | none => exact ⟨_, rfl, rfl⟩
  | some sal => exact ⟨_, rfl, rfl⟩

theorem C1_predict_pipeline_witness :
    (Json.obj [("data", Json.str "x")]).lookup "data" = some (Json.str "x")
  ∧ ∃ body : Json,
      do_POST Unit unitEnv "demo" "" "/api/predict/" (Json.obj [("data", Json.str "x")])
        = .ok (Response.ok (some body), "", 1)
    ∧ body.lookup "data" = some (unitEnv.interface.postprocess (unitEnv.interface.predict
        (unitEnv.interface.preprocess (Json.str "x")))) :=
  ⟨rfl, C1_predict_pipeline Unit unitEnv "demo" "" (Json.obj [("data", Json.str "x")])
    (Json.str "x") rfl⟩


theorem do_POST_flag_step (V : Type) (env : Env V) (dir st : String) (msg d message : Json)
    (h1 : msg.lookup "data" = some d) (h2 : d.lookup "message" = some message) :
    do_POST V env dir st "/api/flag/" msg
      = .ok (Response.ok none,
          st ++ Json.dumps (flagRecord V env (ospath_join dir FLAGGING_DIRECTORY) msg message)
            ++ "\n", 0) := by
  unfold do_POST
  rw [if_neg (by decide), if_pos rfl, h1]
  show (match d.lookup "message" with
    | none => Except.error "KeyError: message"
    | some message =>
        Except.ok (Response.ok none,
          st ++ Json.dumps (flagRecord V env (ospath_join dir FLAGGING_DIRECTORY) msg message)
            ++ "\n", 0)) = _
  rw [h2]

theorem concatLines_count_nl (recs : List Json) :
    (concatLines recs).data.count '\n' = recs.length := by
  induction recs with
  | nil => rfl
  | cons r rest ih =>
    show (Json.dumps r ++ "\n" ++ concatLines rest).data.count '\n' = rest.length + 1
    rw [String.data_append, String.data_append, List.count_append, List.count_append]
    rw [List.count_eq_zero.mpr (nl_not_mem_dumps r), ih]
    simp [Nat.add_comm]

theorem runFlagCalls_spec (V : Type) (env : Env V) (dir : String) :
    ∀ (msgs : List Json), (∀ m ∈ msgs, validFlagMsg m = true) →
      ∀ (st : String),
      runFlagCalls V env dir msgs st
        = .ok (st ++ concatLines (msgs.map (fun m => flagRecord V env
            (ospath_join dir FLAGGING_DIRECTORY) m
            (((m.lookup "data").bind (fun d => d.lookup "message")).getD Json.null)))) := by
  intro msgs
  induction msgs with
  | nil =>
    intro h st
    show Except.ok st = _
    rw [List.map_nil, show concatLines ([] : List Json) = "" from rfl, String.append_empty]
  | cons m ms ih =>
    intro h st
    have hm := h m (List.mem_cons_self m ms)
    cases hm1 : m.lookup "data" with
    | none => rw [validFlagMsg, hm1] at hm; simp at hm
    | some d =>
      cases hm2 : d.lookup "message" with
      | none => rw [validFlagMsg, hm1] at hm; simp [hm2] at hm
      | some message =>
        have hstep := do_POST_flag_step V env dir st m d message hm1 hm2
        show List.foldlM _ st (m :: ms) = _
        rw [List.foldlM_cons, hstep]
        show runFlagCalls V env dir ms
          (st ++ Json.dumps (flagRecord V env (ospath_join dir FLAGGING_DIRECTORY) m message)
            ++ "\n") = _
        rw [ih (fun m' hm' => h m' (List.mem_cons_of_mem m hm')) _]
        rw [List.map_cons, hm1]
        show _ = Except.ok (st ++ concatLines (flagRecord V env
          (ospath_join dir FLAGGING_DIRECTORY) m
          (((some d).bind (fun d => d.lookup "message")).getD Json.null) :: ms.map _))
        rw [show ((some d).bind (fun d => d.lookup "message")) = d.lookup "message" from rfl, hm2]
        rw [show (some message).getD Json.null = message from rfl]
        show Except.ok _ = Except.ok (st ++ (Json.dumps (flagRecord V env
          (ospath_join dir FLAGGING_DIRECTORY) m message) ++ "\n" ++ concatLines (ms.map _)))
        simp [String.append_assoc]

/-- C4: each valid POST to `/api/flag/` appends exactly one record — the
serialized `{input, output, message}` object (`flagRecord`) followed by a
newline — to the flag-log file, and never rewrites or truncates existing
content (`'a+'` append mode: the previous content remains as a prefix);
after `N` sequential calls the appended part is exactly the `N` records in
call order, each serialization newline-free, so the log gains exactly `N`
lines, each line one serialized JSON record. -/
theorem C4_flag_appends (V : Type) (env : Env V) (dir st : String) (msgs : List Json)
    (h : ∀ m ∈ msgs, validFlagMsg m = true) :
    ∃ recs : List Json,
      recs = msgs.map (fun m => flagRecord V env (ospath_join dir FLAGGING_DIRECTORY) m
        (((m.lookup "data").bind (fun d => d.lookup "message")).getD Json.null))
    ∧ recs.length = msgs.length
    ∧ runFlagCalls V env dir msgs st = .ok (st ++ concatLines recs)
    ∧ (∀ r ∈ recs, '\n' ∉ (Json.dumps r).data)
    ∧ (concatLines recs).data.count '\n' = msgs.length := by
  refine ⟨_, rfl, List.length_map _ _, runFlagCalls_spec V env dir msgs h st,
    fun r _ => nl_not_mem_dumps r, ?_⟩
  rw [concatLines_count_nl, List.length_map]

theorem C4_flag_appends_witness :
    (∀ m ∈ [Json.obj [("data", Json.obj [("message", Json.str "bad prediction")])]],
        validFlagMsg m = true)
  ∧ ∃ recs : List Json,
      recs = [Json.obj [("data", Json.obj [("message", Json.str "bad prediction")])]].map
        (fun m => flagRecord Unit unitEnv (ospath_join "demo" FLAGGING_DIRECTORY) m
          (((m.lookup "data").bind (fun d => d.lookup "message")).getD Json.null))
    ∧ recs.length = 1
    ∧ runFlagCalls Unit unitEnv "demo"
        [Json.obj [("data", Json.obj [("message", Json.str "bad prediction")])]] ""
        = .ok ("" ++ concatLines recs)
    ∧ (∀ r ∈ recs, '\n' ∉ (Json.dumps r).data)
    ∧ (concatLines recs).data.count '\n' = 1 :=
  ⟨by decide, C4_flag_appends Unit unitEnv "demo" ""
    [Json.obj [("data", Json.obj [("message", Json.str "bad prediction")])]] (by decide)⟩

theorem rotation_foldl (V : Type) (env : Env V) (fd : String) (img : V) :
    ∀ (degs : List Int) (st : String) (n : Nat),
      degs.foldl (rotationStep V env fd img) (st, n)
        = (st ++ concatLines (degs.map (rotationRecord V env fd img)), n + degs.length) := by
  intro degs
  induction degs with
  | nil =>
    intro st n
    rw [List.foldl_nil, List.map_nil, show concatLines ([] : List Json) = "" from rfl,
      String.append_empty, List.length_nil, Nat.add_zero]
  | cons deg rest ih =>
    intro st n
    rw [List.foldl_cons]
    show rest.foldl (rotationStep V env fd img)
      (st ++ Json.dumps (rotationRecord V env fd img deg) ++ "\n", n + 1) = _
    rw [ih, List.map_cons]
    show (_, _) = (st ++ (Json.dumps (rotationRecord V env fd img deg) ++ "\n"
      ++ concatLines (rest.map (rotationRecord V env fd img))), n + (rest.length + 1))
    rw [Prod.mk.injEq]
    constructor
    · simp [String.append_assoc]
    · omega

/-- C5: a valid POST to `/api/auto/rotation` appends exactly 9 flag-log
records, one per rotation angle of `range(-180, 180 + 45, 45)` — that is
`[-180, -135, -90, -45, 0, 45, 90, 135, 180]` in that order — whose
messages are `"rotation by -180 degrees"` through `"rotation by 180
degrees"` in step-45 order, re-predicting once per angle, and then responds
with the empty JSON object `{}`. -/
theorem C5_rotation_nine_records (V : Type) (env : Env V) (dir st : String) (msg d : Json)
    (h : msg.lookup "data" = some d) :
    ∃ recs : List Json,
      do_POST V env dir st "/api/auto/rotation" msg
        = .ok (Response.ok (some (Json.obj [])), st ++ concatLines recs, 9)
    ∧ recs.length = 9
    ∧ recs.map (fun r => r.lookup "message")
        = rotationAngles.map (fun deg =>
            some (Json.str ("rotation by " ++ intRepr deg ++ " degrees")))
    ∧ rotationAngles = [-180, -135, -90, -45, 0, 45, 90, 135, 180]
    ∧ (concatLines recs).data.count '\n' = 9 := by
  have hangles : rotationAngles = [-180, -135, -90, -45, 0, 45, 90, 135, 180] := by decide
  refine ⟨rotationAngles.map (rotationRecord V env (ospath_join dir FLAGGING_DIRECTORY)
    (env.resize_224 (env.convert_RGB (env.decode_base64_to_image d)))), ?_, ?_, ?_, hangles, ?_⟩
  · unfold do_POST
    rw [if_neg (by decide), if_neg (by decide), if_pos rfl, h]
    show Except.ok (Response.ok (some (Json.obj [])),
      (rotationAngles.foldl (rotationStep V env (ospath_join dir FLAGGING_DIRECTORY)
        (env.resize_224 (env.convert_RGB (env.decode_base64_to_image d)))) (st, 0)).1,
      (rotationAngles.foldl (rotationStep V env (ospath_join dir FLAGGING_DIRECTORY)
        (env.resize_224 (env.convert_RGB (env.decode_base64_to_image d)))) (st, 0)).2) = _
    rw [rotation_foldl]
    rw [show rotationAngles.length = 9 from by rw [hangles]; rfl]
  · rw [List.length_map, hangles]; rfl
  · rw [hangles]
    rfl
  · rw [concatLines_count_nl, List.length_map, hangles]; rfl

theorem C5_rotation_nine_records_witness :
    (Json.obj [("data", Json.str "base64image")]).lookup "data" = some (Json.str "base64image")
  ∧ ∃ recs : List Json,
      do_POST Unit unitEnv "demo" "" "/api/auto/rotation" (Json.obj [("data", Json.str "base64image")])
        = .ok (Response.ok (some (Json.obj [])), "" ++ concatLines recs, 9)
    ∧ recs.length = 9
    ∧ recs.map (fun r => r.lookup "message")
        = rotationAngles.map (fun deg =>
            some (Json.str ("rotation by " ++ intRepr deg ++ " degrees")))
    ∧ rotationAngles = [-180, -135, -90, -45, 0, 45, 90, 135, 180]
    ∧ (concatLines recs).data.count '\n' = 9 :=
  ⟨rfl, C5_rotation_nine_records Unit unitEnv "demo" "" (Json.obj [("data", Json.str "base64image")])
    (Json.str "base64image") rfl⟩

/-- C6: a POST to any path other than `/api/predict/`, `/api/flag/`,
`/api/auto/rotation` and `/api/auto/lighting` is answered with
`send_error(404, 'Path not found: <path>')`; the flag log is unchanged and
the interface's predict function is not invoked. -/
theorem C6_unknown_path_404 (V : Type) (env : Env V) (dir st path : String) (msg : Json)
    (h1 : path ≠ "/api/predict/") (h2 : path ≠ "/api/flag/")
    (h3 : path ≠ "/api/auto/rotation") (h4 : path ≠ "/api/auto/lighting") :
    do_POST V env dir st path msg
      = .ok (Response.err 404 ("Path not found: " ++ path), st, 0) := by
  unfold do_POST
  rw [if_neg h1, if_neg h2, if_neg h3, if_neg h4]

theorem C6_unknown_path_404_witness :
    do_POST Unit unitEnv "demo" "the log" "/api/other/" (Json.obj [])
      = .ok (Response.err 404 ("Path not found: " ++ "/api/other/"), "the log", 0) :=
  C6_unknown_path_404 Unit unitEnv "demo" "the log" "/api/other/" (Json.obj [])
    (by decide) (by decide) (by decide) (by decide)

/-! ### Path translation theorem -/

theorem commonPrefixLen_append (cwd ws : List String) :
    commonPrefixLen cwd (cwd ++ ws) = cwd.length := by
  induction cwd with
  | nil => rfl
  | cons a as ih =>
    show (if a = a then 1 + commonPrefixLen as (as ++ ws) else 0) = as.length + 1
    rw [if_pos rfl, ih]
    omega

/-- C8: for every request path, the handler's `translate_path` produces a
filesystem path inside the serve directory: the translated path is the
serve root `base` followed by components none of which is `..` (or empty),
so no request path — `..` segments included — resolves outside the root.
The stdlib translation keeps only plain words under `os.getcwd()`,
`os.path.relpath` against `os.getcwd()` therefore yields exactly those
words (or `.`), and joining them to `base_path` stays under `base_path`. -/
theorem C8_translate_path_stays_in_root (base cwd : List String) (p : String) :
    ∃ ws : List String,
      translate_path base cwd p = base ++ ws
    ∧ ∀ w ∈ ws, w ≠ ".." ∧ w ≠ "" := by
  simp only [translate_path, relpathComps]
  rw [commonPrefixLen_append, Nat.sub_self, List.replicate_zero, List.nil_append,
    List.drop_left]
  by_cases hstw : stdTranslateWords p = []
  · rw [hstw]
    refine ⟨["."], by rw [if_pos rfl], ?_⟩
    intro w hw
    rw [List.mem_singleton] at hw
    subst hw
    exact ⟨by decide, by decide⟩
  · refine ⟨stdTranslateWords p, by rw [if_neg hstw], ?_⟩
    intro w hw
    unfold stdTranslateWords at hw
    have h2 := of_decide_eq_true (List.mem_filter.mp hw).2
    push_neg at h2
    exact ⟨h2.2.2, h2.1⟩

/-! ### Tunnel setup theorems -/

theorem setup_tunnel_ok_eq (r : UrlResponse) (loads : String → Except PyExn Json)
    (create_tunnel : Json → Except PyExn String) :
    setup_tunnel (.ok r) loads create_tunnel
      = if r.code = 200 then
          match tunnel_block loads create_tunnel r.body with
          | .ok share_url => .ok (some share_url)
          | .error e => .error (.runtimeError (exnStr e))
        else .ok none := rfl

/-- C7 counterexample: a broker response with a success status other than
200 (for example 204, which `urlopen` returns without raising, since
urllib only raises for final statuses outside 200..299) makes
`setup_tunnel` fall off the end of the function: it returns `None` with no
payload and no error — contradicting the claim that every non-200 response
fails with a wrapped broker error and that the function never silently
returns without either a payload or an error. -/
theorem C7_counterexample_silent_none :
    setup_tunnel (.ok ⟨204, "[]"⟩) (fun _ => .error (.collaborator "unparsed"))
      (fun _ => .error (.collaborator "no tunnel")) = .ok none
  ∧ (204 : Nat) ≠ 200 ∧ (200 : Nat) ≤ 204 ∧ (204 : Nat) < 300 :=
  ⟨rfl, by decide, by decide, by decide⟩

/-- C7 (amended): the broker request passes `urlopen` the fixed 10-second
timeout, and every exception the request raises — network error, timeout,
or an HTTP error status, which `urlopen` raises for any final status
outside 200..299 — is re-raised as `RuntimeError(str(e))` carrying the
underlying cause message; on a 200 response, `setup_tunnel` either returns
the tunnel URL or raises a wrapped `RuntimeError`; but on a response whose
code is in 200..299 yet not exactly 200, `setup_tunnel` silently returns
`None` — neither a payload nor an error. -/
theorem C7_tunnel_amended (loads : String → Except PyExn Json)
    (create_tunnel : Json → Except PyExn String) (r : UrlResponse) (e : PyExn) :
    URL_REQUEST_TIMEOUT_SECONDS = 10
  ∧ url_request (.error e) = .error (.runtimeError (exnStr e))
  ∧ url_request (.ok r) = .ok r
  ∧ setup_tunnel (.error e) loads create_tunnel = .error (.runtimeError (exnStr e))
  ∧ (r.code = 200 →
      (∃ u, setup_tunnel (.ok r) loads create_tunnel = .ok (some u))
      ∨ (∃ m, setup_tunnel (.ok r) loads create_tunnel = .error (.runtimeError m)))
  ∧ (r.code ≠ 200 → setup_tunnel (.ok r) loads create_tunnel = .ok none) := by
  refine ⟨rfl, rfl, rfl, rfl, ?_, ?_⟩
  · intro h200
    rw [setup_tunnel_ok_eq, if_pos h200]
    cases hdo : tunnel_block loads create_tunnel r.body with
    | ok u =>
      left
      exact ⟨u, rfl⟩
    | error e' =>
      right
      exact ⟨exnStr e', rfl⟩
  · intro hne
    rw [setup_tunnel_ok_eq, if_neg hne]

theorem C7_tunnel_amended_witness :
    URL_REQUEST_TIMEOUT_SECONDS = 10
  ∧ url_request (.error (.collaborator "timed out")) = .error (.runtimeError "timed out")
  ∧ setup_tunnel (.ok ⟨204, ""⟩) (fun _ => .ok (Json.arr [Json.null]))
      (fun _ => .ok "https://share.gradio.example") = .ok none
  ∧ ((∃ u, setup_tunnel (.ok ⟨200, "[]"⟩) (fun _ => .ok (Json.arr [Json.null]))
        (fun _ => .ok "https://share.gradio.example") = .ok (some u))
      ∨ (∃ m, setup_tunnel (.ok ⟨200, "[]"⟩) (fun _ => .ok (Json.arr [Json.null]))
        (fun _ => .ok "https://share.gradio.example") = .error (.runtimeError m))) := by
  have h1 := C7_tunnel_amended (fun _ => .ok (Json.arr [Json.null]))
    (fun _ => .ok "https://share.gradio.example") ⟨204, ""⟩ (.collaborator "timed out")
  have h2 := C7_tunnel_amended (fun _ => .ok (Json.arr [Json.null]))
    (fun _ => .ok "https://share.gradio.example") ⟨200, "[]"⟩ (.collaborator "timed out")
  exact ⟨h1.1, h1.2.1, h1.2.2.2.2.2 (by decide), h2.2.2.2.2.1 (by decide)⟩

theorem C8_translate_path_stays_in_root_witness :
    ∃ ws : List String,
      translate_path ["srv", "demo"] ["home", "user"] "/../../etc/passwd"
        = ["srv", "demo"] ++ ws
    ∧ ∀ w ∈ ws, w ≠ ".." ∧ w ≠ "" :=
  C8_translate_path_stays_in_root ["srv", "demo"] ["home", "user"] "/../../etc/passwd"
